import Mathlib

/-!
Verification of the intrahost variant-calling core (`intrahost.py`).

We shallowly embed the algorithmic parts of the module:
sequences and allele strings are `List Char`, read counts are `ℕ`,
frequencies are `ℚ` (Python floats modelled by exact rationals),
descriptive row fields are `String`, fallible code returns
`Option`/`Except` (a `.error` models a raised exception).
-/

deriving instance DecidableEq for Except

namespace Intrahost

/-! ## Generic helpers: splitting, parsing, association lists -/

/-- `str.split(sep)` for a single-character separator: `"".split(c) = [""]`,
separators at the ends produce empty pieces. -/
def splitChar (sep : Char) : List Char → List (List Char)
  | [] => [[]]
  | c :: rest =>
    let r := splitChar sep rest
    if c = sep then [] :: r
    else
      match r with
      | [] => [[c]]
      | h :: t => (c :: h) :: t

/-- Python `int(s)` on a non-negative decimal numeral; `none` models `ValueError`.
(The source only ever applies `int` to digit strings; signs and whitespace are
out of the modelled domain.) -/
def parseNat (ds : List Char) : Option ℕ :=
  if ds ≠ [] ∧ ds.all (fun c => c.isDigit) then
    some (ds.foldl (fun n c => 10 * n + (c.toNat - 48)) 0)
  else none

/-- Python `int(s)` allowing a leading minus sign. -/
def parseInt (ds : List Char) : Option ℤ :=
  match ds with
  | '-' :: rest => (parseNat rest).map (fun n => -(n : ℤ))
  | _ => (parseNat ds).map (fun n => (n : ℤ))

/-- Python `float(s)` on plain decimal numerals `ddd` or `ddd.ddd`
(optionally negative); `none` models `ValueError`.  Scientific notation and
bare fractions such as `".5"` are outside the modelled domain. -/
def parsePosRat (ds : List Char) : Option ℚ :=
  match splitChar '.' ds with
  | [ip] => (parseNat ip).map (fun n => (n : ℚ))
  | [ip, fp] =>
    match parseNat ip, parseNat fp with
    | some i, some f => some ((i : ℚ) + (f : ℚ) / (10 : ℚ) ^ fp.length)
    | _, _ => none
  | _ => none

def parseRat (ds : List Char) : Option ℚ :=
  match ds with
  | '-' :: rest => (parsePosRat rest).map (fun q => -q)
  | _ => parsePosRat ds

/-- First-occurrence lookup in an association list (Python `dict.get`:
our association lists keep at most one entry per key once built by
`updateA`, and lists built by single traversals have distinct keys). -/
def lookupA {α β : Type} [DecidableEq α] : List (α × β) → α → Option β
  | [], _ => none
  | (k', v) :: rest, k => if k' = k then some v else lookupA rest k

/-- Lookup modelling `dict(pairs)` built from a pair list: the *last*
occurrence of a key wins. -/
def lookupLastA {α β : Type} [DecidableEq α] (m : List (α × β)) (k : α) : Option β :=
  lookupA m.reverse k

/-- `d[k] = v` on a dict modelled as an association list: overwrite in place
(keeping the key's first-insertion position) or append a fresh entry. -/
def updateA {α β : Type} [DecidableEq α] : List (α × β) → α → β → List (α × β)
  | [], k, v => [(k, v)]
  | (k', v') :: rest, k, v =>
    if k' = k then (k', v) :: rest else (k', v') :: updateA rest k v

/-- Index of the first occurrence of `a`, as `dict((a,i) for i,a in enumerate l)`
lookup behaves for duplicate-free `l`. -/
def idxOfA {α : Type} [DecidableEq α] : List α → α → Option ℕ
  | [], _ => none
  | x :: rest, a => if x = a then some 0 else (idxOfA rest a).map (fun n => n + 1)

/-- Worker for `uniqueL`, carrying the set of already-seen elements. -/
def uniqueAux {α : Type} [DecidableEq α] : List α → List α → List α
  | [], _ => []
  | x :: rest, seen =>
    if x ∈ seen then uniqueAux rest seen else x :: uniqueAux rest (x :: seen)

/-- Modelled from the spec: `util.misc.unique` (not under `src/`) de-duplicates
a sequence preserving first-seen order. -/
def uniqueL {α : Type} [DecidableEq α] (l : List α) : List α :=
  uniqueAux l []

/-- Modelled from the spec: `util.misc.histogram` (not under `src/`) counts
occurrences; keys appear in first-seen order. -/
def histogramL {α : Type} [DecidableEq α] (l : List α) : List (α × ℕ) :=
  (uniqueL l).map (fun a => (a, l.count a))

/-- `sorted(..., key=lambda a,n: n, reverse=True)` as written at lines 207
and 259.  `lambda a,n: n` is a two-parameter function in every Python
version (Python-2 tuple-parameter unpacking would require the parenthesized
form `lambda (a,n): n`), and `sorted` always calls `key(item)` with a single
argument, so the key raises `TypeError` the first time it is called — that
is, whenever the list being sorted is non-empty.  `sorted([])` never calls
the key and returns `[]`. -/
def sortedByBrokenKey {α : Type} (l : List (α × ℕ)) :
    Except String (List (α × ℕ)) :=
  if l.isEmpty then .ok [] else .error "TypeError: lambda a,n"

/-! ## `%.6g` formatting (used for the strand-bias percentage field) -/

/-- Strip trailing `'0'` characters. -/
def stripTrailZeros (s : List Char) : List Char :=
  (s.reverse.dropWhile (fun c => c = '0')).reverse

/-- For `0 < q < 1`: the smallest `m ≥ 1` with `1 ≤ q * 10^m` (fuel-bounded). -/
def negExpAux (q : ℚ) : ℕ → ℕ
  | 0 => 1
  | fuel + 1 => if 1 ≤ q * 10 then 1 else 1 + negExpAux (q * 10) fuel

/-- Round a non-negative rational to the nearest natural, ties to even
(the rounding used by C `printf` on exactly representable halves). -/
def roundHalfEven (p : ℚ) : ℕ :=
  let n := p.num.toNat
  let d := p.den
  let q := n / d
  let r := n % d
  if 2 * r < d then q
  else if d < 2 * r then q + 1
  else if q % 2 = 0 then q else q + 1

/-- Render a 6-significant-digit mantissa `m` (`10^5 ≤ m < 10^6`) with `k ≥ 1`
digits before the decimal point, trailing zeros stripped. -/
def render6 (m : ℕ) (k : ℕ) : List Char :=
  let ds := Nat.toDigits 10 m
  let ip := ds.take k ++ List.replicate (k - ds.length) '0'
  let fp := stripTrailZeros (ds.drop k)
  if fp = [] then ip else ip ++ '.' :: fp

/-- Python `'%.6g' % q` for the non-negative rationals this program produces
(fixed-point range; exponent notation is outside the modelled domain). -/
def format6g (q : ℚ) : String :=
  if q ≤ 0 then "0"
  else
    let e : ℤ :=
      if 1 ≤ q then (Nat.toDigits 10 (q.num.toNat / q.den)).length - 1
      else -(negExpAux q 40 : ℤ)
    let p : ℚ := q * (10 : ℚ) ^ ((5 : ℤ) - e)
    let m0 := roundHalfEven p
    let m := if m0 = 10 ^ 6 then 10 ^ 5 else m0
    let e' := if m0 = 10 ^ 6 then e + 1 else e
    if 0 ≤ e' then String.mk (render6 m (e'.toNat + 1))
    else
      String.mk ('0' :: '.' :: List.replicate ((-e').toNat - 1) '0'
        ++ stripTrailZeros (Nat.toDigits 10 m))

/-! ## `filter_strand_bias` (StrandBiasFilter, intrahost.py lines 41-63)

A V-Phaser row is modelled with its 7 leading descriptive fields already
split off (`row[:7]`) and its `allele:forward:reverse` columns already parsed
into `(allele, forward, reverse)` triples with `ℕ` counts (`int(f)`,
`int(r)`). -/

def defaultMinReads : ℕ := 5

def defaultMaxBias : ℕ := 10

structure VpRow where
  front : List String
  acounts : List (String × ℕ × ℕ)
deriving DecidableEq

/-- Total depth `forward + reverse` of one allele column. -/
def callDepth (t : String × ℕ × ℕ) : ℕ := t.2.1 + t.2.2

/-- The per-allele keep condition of `filter_strand_bias`:
`int(f)>=minReadsEach and int(r)>=minReadsEach and
maxBias >= float(f)/float(r) >= 1.0/maxBias`. -/
def passBias (minReadsEach maxBias : ℕ) (t : String × ℕ × ℕ) : Bool :=
  decide (minReadsEach ≤ t.2.1) && decide (minReadsEach ≤ t.2.2) &&
  decide ((t.2.1 : ℚ) / (t.2.2 : ℚ) ≤ (maxBias : ℚ)) &&
  decide ((1 : ℚ) / (maxBias : ℚ) ≤ (t.2.1 : ℚ) / (t.2.2 : ℚ))

/-- The ranking order of `reversed(sorted((f+r, a, f, r) ...))`: descending by
total depth, ties broken by descending allele string.  (Further tie-breaking on
the count strings only matters for rows repeating an identical allele code.) -/
def rankRel (x y : String × ℕ × ℕ) : Prop :=
  callDepth y < callDepth x ∨ (callDepth y = callDepth x ∧ y.1 ≤ x.1)

instance : DecidableRel rankRel := fun x y => by
  unfold rankRel; infer_instance

instance : IsTotal (String × ℕ × ℕ) rankRel where
  total x y := by
    unfold rankRel
    rcases Nat.lt_trichotomy (callDepth x) (callDepth y) with h | h | h
    · exact Or.inr (Or.inl h)
    · rcases le_total x.1 y.1 with h' | h'
      · exact Or.inr (Or.inr ⟨h, h'⟩)
      · exact Or.inl (Or.inr ⟨h.symm, h'⟩)
    · exact Or.inl (Or.inl h)

instance : IsTrans (String × ℕ × ℕ) rankRel where
  trans x y z hxy hyz := by
    unfold rankRel at *
    rcases hxy with h1 | ⟨h1, h1'⟩ <;> rcases hyz with h2 | ⟨h2, h2'⟩
    · exact Or.inl (by omega)
    · exact Or.inl (by omega)
    · exact Or.inl (by omega)
    · exact Or.inr ⟨by omega, h2'.trans h1'⟩

/-- `list(reversed(sorted((int(f)+int(r), a, f, r) for ...)))` from line 56. -/
def sortCalls (l : List (String × ℕ × ℕ)) : List (String × ℕ × ℕ) :=
  List.insertionSort rankRel l

/-- Lines 56-63: the emitted row, given that more than one allele survived:
surviving alleles ranked by depth, the minor and major descriptor fields
overwritten with the 2nd- and 1st-ranked allele codes, and the bias-percent field
recomputed as `'%.6g' % (100.0*mac/tot)`. -/
def strandBiasEmit (minReadsEach maxBias : ℕ) (row : VpRow) : VpRow :=
  let sorted := sortCalls (row.acounts.filter (passBias minReadsEach maxBias))
  let mac := ((sorted.drop 1).map callDepth).sum
  let tot := (sorted.map callDepth).sum
  let minor := ((sorted.get? 1).map (fun t => t.1)).getD ""
  let major := ((sorted.get? 0).map (fun t => t.1)).getD ""
  ⟨((row.front.set 2 minor).set 3 major).set 6
      (format6g (100 * (mac : ℚ) / (tot : ℚ))),
   sorted⟩

/-- One iteration of the `filter_strand_bias` loop body (lines 50-63):
`none` means the row is dropped. -/
def strand_bias_row (minReadsEach maxBias : ℕ) (row : VpRow) : Option VpRow :=
  if 1 < (row.acounts.filter (passBias minReadsEach maxBias)).length then
    some (strandBiasEmit minReadsEach maxBias row)
  else none

/-- `filter_strand_bias` over a whole input sequence. -/
def filter_strand_bias (minReadsEach maxBias : ℕ) (rows : List VpRow) : List VpRow :=
  rows.filterMap (strand_bias_row minReadsEach maxBias)

/-! ## `vphaser_to_vcf` (VariantSetBuilder, intrahost.py lines 145-270)

We embed the per-position body of the loop over `itertools.groupby` groups.
Sample ids are `String`, sequences `List Char`.  The `aln` argument gives the
(already resolved) consensus alignment row of each sample; `grouped` is the
position's rows with their `allele:forward:reverse` columns parsed to
`(code, forward, reverse)` triples (lines 188-190). -/

/-- One parsed `allele:forward:reverse` column. -/
structure Call where
  a : List Char
  f : ℕ
  r : ℕ
deriving DecidableEq

/-- `a in set(('A','C','T','G'))`. -/
def isACTG (c : Char) : Bool :=
  c = 'A' || c = 'C' || c = 'T' || c = 'G'

/-- Python `x == x.upper()` per character. -/
def isUpperStr (a : List Char) : Bool :=
  a.all (fun c => c.toUpper = c)

/-- The hard re-filter of line 193: `f>=5 and r>=5 and 10>=(float(f)/r)>=0.1`
(thresholds hardcoded, independent of `filter_strand_bias` parameters). -/
def hardFilter (c : Call) : Bool :=
  decide (5 ≤ c.f) && decide (5 ≤ c.r) &&
  decide ((c.f : ℚ) / (c.r : ℚ) ≤ 10) &&
  decide ((1 : ℚ) / 10 ≤ (c.f : ℚ) / (c.r : ℚ))

def refilterRows (grouped : List (String × List Call)) : List (String × List Call) :=
  grouped.map (fun p => (p.1, p.2.filter hardFilter))

/-- `dropped = set(s for s,counts in rows if len(counts)<=1)` (line 198). -/
def droppedSamples (rows1 : List (String × List Call)) : List String :=
  (rows1.filter (fun p => decide (p.2.length ≤ 1))).map (fun p => p.1)

/-- Lines 192-199: re-filter the calls, then drop every sample left with at
most one allele. -/
def survivorRows (grouped : List (String × List Call)) : List (String × List Call) :=
  let rows1 := refilterRows grouped
  rows1.filter (fun p => decide (p.1 ∉ droppedSamples rows1))

/-- Line 207: combine forward+reverse depth per allele and sort each sample's
allele list with `sorted(..., key=lambda a,n: n, reverse=True)`.  Because the
two-parameter key raises `TypeError` on any non-empty list and every
surviving sample has at least two alleles, this line aborts the conversion
whenever any sample survives the re-filter. -/
def combineSort : List (String × List Call) →
    Except String (List (String × List (List Char × ℕ)))
  | [] => .ok []
  | (s, cs) :: rest =>
    match sortedByBrokenKey (cs.map (fun c => (c.a, c.f + c.r))) with
    | .error m => .error m
    | .ok l =>
      match combineSort rest with
      | .error m => .error m
      | .ok r => .ok ((s, l) :: r)

/-- Lines 210-214: widen the site span by the largest deletion.  A `D` code
whose suffix is not a numeral raises `ValueError` (modelled as `.error`). -/
def endOfE (pos : ℕ) (rows3 : List (String × List (List Char × ℕ))) :
    Except String ℕ :=
  rows3.foldlM
    (fun e p =>
      p.2.foldlM
        (fun e c =>
          match c.1 with
          | 'D' :: ds =>
            match parseNat ds with
            | some n => pure (max e (pos + n))
            | none => throw "ValueError: int"
          | _ => pure e)
        e)
    pos

/-- `seq[pos-1:e]` (1-based inclusive site coordinates). -/
def sliceSeq (s : List Char) (pos e : ℕ) : List Char :=
  (s.drop (pos - 1)).take (e - (pos - 1))

/-- Lines 218-222: per-sample consensus slices, with samples whose slice
contains a character outside `{A,C,T,G}` removed (the `del` in the source;
Python-2 `items()` snapshot semantics). -/
def consAllelesOf (samples : List String) (aln : String → List Char)
    (pos e : ℕ) : List (String × List Char) :=
  (samples.map (fun s => (s, sliceSeq (aln s) pos e))).filter
    (fun p => p.2.all isACTG)

/-- Line 250: `assert a and a==a.upper()` — the resolved allele is handed on
only when it is non-empty and all uppercase; otherwise `AssertionError`. -/
def finishAllele (x : List Char) : Option (List Char) :=
  if x ≠ [] ∧ isUpperStr x then some x else none

/-- Lines 234-250: resolve one vPhaser allele code against the sample's
consensus slice.  `none` models a raised exception (`IndexError` on an empty
consensus slice, `ValueError` from `int`, or the final
`assert a and a==a.upper()` / `assert a in set(('A','C','T','G'))`). -/
def resolveAllele (f : ℚ) (consAllele : List Char) (a : List Char) :
    Option (List Char) :=
  match a with
  | 'I' :: ins =>
    match consAllele with
    | [] => none
    | c0 :: rest => finishAllele (c0 :: ins ++ rest)
  | 'D' :: ds =>
    match consAllele with
    | [] => none
    | c0 :: _ =>
      match parseNat ds with
      | none => none
      | some n => finishAllele (c0 :: consAllele.drop (1 + n))
  | a' =>
    if a' = ['i'] ∨ a' = ['d'] then finishAllele consAllele
    else
      match a' with
      | [c] =>
        if isACTG c then
          -- the `f>0.5` mismatch warning compares against `consAllele[0]`,
          -- which raises IndexError when the slice is empty
          if (1 : ℚ) / 2 < f ∧ consAllele = [] then none
          else finishAllele (c :: consAllele.drop 1)
        else none
      | _ => none

/-- Lines 231-251: resolve a sample's sorted allele counts into the
`iSNVs[s]` frequency dict (an insertion-ordered association list). -/
def resolveInto (totn : ℕ) (ca : List Char) :
    List (List Char × ℕ) → List (List Char × ℚ) →
    Except String (List (List Char × ℚ))
  | [], acc => .ok acc
  | (a, n) :: rest, acc =>
    match resolveAllele ((n : ℚ) / (totn : ℚ)) ca a with
    | none => .error "AssertionError: resolve"
    | some a' => resolveInto totn ca rest (updateA acc a' ((n : ℚ) / (totn : ℚ)))

/-- Lines 231-253: one sample's `iSNVs[s]`, including the line-252 sanity
check (`if` all resolved alleles have length 1 `then` the consensus allele
must be among them). -/
def sampleISNVs (ca : List Char) (cs : List (List Char × ℕ)) :
    Except String (List (List Char × ℚ)) :=
  match resolveInto ((cs.map (fun p => p.2)).sum) ca cs [] with
  | .error m => .error m
  | .ok m =>
    if uniqueL (m.map (fun p => p.1.length)) = [1] then
      if (lookupA m ca).isSome then .ok m
      else .error "AssertionError: consAllele in iSNVs"
    else .ok m

/-- Lines 225-256, the `for s in samples` loop.  A sample with surviving
caller data whose consensus slice was deleted as unclean hits
`consAlleles[s]`, a `KeyError` (modelled as `.error`).  A sample with no
caller data but a clean consensus gets `{consAllele: 1.0}`. -/
def iSNVsOf (rows3 : List (String × List (List Char × ℕ)))
    (cons : List (String × List Char)) :
    List String → Except String (List (String × List (List Char × ℚ)))
  | [] => .ok []
  | s :: rest =>
    match lookupLastA rows3 s with
    | some cs =>
      match lookupA cons s with
      | none => .error "KeyError: consAlleles"
      | some ca =>
        match sampleISNVs ca cs with
        | .error m => .error m
        | .ok m => (iSNVsOf rows3 cons rest).map (fun l => (s, m) :: l)
    | none =>
      match lookupA cons s with
      | some ca => (iSNVsOf rows3 cons rest).map (fun l => (s, [(ca, (1 : ℚ))]) :: l)
      | none => iSNVsOf rows3 cons rest

/-- Lines 258-261 as written: rank the consensus histogram with the same
malformed `key=lambda a,n: n` (which raises `TypeError` whenever the
histogram is non-empty), then build `unique([refAllele] ++ ranked ++
alleles2)` first-seen.  This code is in any case unreachable: line 207 has
already raised for every position that gets this far. -/
def vocabOf (refA : List Char) (cons : List (String × List Char))
    (isnvs : List (String × List (List Char × ℚ))) :
    Except String (List (List Char)) :=
  match sortedByBrokenKey (histogramL (cons.map (fun p => p.2))) with
  | .error m => .error m
  | .ok ranked0 =>
    .ok (uniqueL ([refA] ++
      (ranked0.map (fun p => p.1)).filter (fun a => decide (a ≠ refA)) ++
      (isnvs.map (fun p => p.2.map (fun q => q.1))).flatten))

/-- One emitted VCF data row: REF, ALT list, and per listed sample the GT
index (`none` = `'.'`) and the AF list (`none` = `'.'`). -/
structure VcfOut where
  pos : ℕ
  refA : List Char
  alts : List (List Char)
  gts : List (Option ℕ)
  afs : List (Option (List ℚ))
deriving DecidableEq

/-- Line 264: `alleleMap.get(consAlleles.get(s), '.')`. -/
def genosOf (samples : List String) (cons : List (String × List Char))
    (vocab : List (List Char)) : List (Option ℕ) :=
  samples.map (fun s => (lookupA cons s).bind (fun ca => idxOfA vocab ca))

/-- Line 265: `(s in iSNVs) and ','.join(iSNVs[s].get(a, 0.0) for a in
alleles[1:]) or '.'` (the joined string is never empty since the vocabulary
has at least two entries). -/
def freqsOf (samples : List String)
    (isnvs : List (String × List (List Char × ℚ)))
    (vocab : List (List Char)) : List (Option (List ℚ)) :=
  samples.map (fun s =>
    (lookupA isnvs s).map (fun m => vocab.tail.map (fun a => (lookupA m a).getD 0)))

def mkOut (pos : ℕ) (samples : List String) (cons : List (String × List Char))
    (isnvs : List (String × List (List Char × ℚ)))
    (vocab : List (List Char)) : VcfOut :=
  ⟨pos, (vocab.head?).getD [], vocab.tail,
   genosOf samples cons vocab, freqsOf samples isnvs vocab⟩

/-- The per-position loop body, lines 186-270.  `.ok none` = the position is
dropped with a warning (line 200-202); `.error` = an uncaught exception.
Whenever any sample survives, execution stops at `combineSort` (line 207's
`TypeError`); everything after it is dead code, embedded here in source
order all the same. -/
def processPositionE (samples : List String) (ref : List Char)
    (aln : String → List Char) (pos : ℕ)
    (grouped : List (String × List Call)) : Except String (Option VcfOut) :=
  if (survivorRows grouped).isEmpty then .ok none
  else
    match combineSort (survivorRows grouped) with
    | .error m => .error m
    | .ok rows3 =>
      match endOfE pos rows3 with
      | .error m => .error m
      | .ok e =>
        match iSNVsOf rows3 (consAllelesOf samples aln pos e) samples with
        | .error m => .error m
        | .ok isnvs =>
          match vocabOf (sliceSeq ref pos e) (consAllelesOf samples aln pos e)
              isnvs with
          | .error m => .error m
          | .ok vocab =>
            if vocab.length ≤ 1 then .error "AssertionError: len alleles > 1"
            else .ok (some (mkOut pos samples (consAllelesOf samples aln pos e)
              isnvs vocab))

/-- Outcome of one site: an emitted record, a logged non-fatal drop, or a
fatal uncaught exception. -/
inductive SiteResult where
  | emitted (v : VcfOut)
  | dropped
  | fatal (msg : String)
deriving DecidableEq

def processPosition (samples : List String) (ref : List Char)
    (aln : String → List Char) (pos : ℕ)
    (grouped : List (String × List Call)) : SiteResult :=
  match processPositionE samples ref aln pos grouped with
  | .error m => .fatal m
  | .ok none => .dropped
  | .ok (some v) => .emitted v

/-! ## `compute_Fws` (FwsCalculator, intrahost.py lines 284-304)

A VCF data row is modelled by its FORMAT field already split on `':'`
(`vcfrow[8].split(':')`) and its per-sample fields already split on `':'`
(`dat.split(':')` of line 290); the subfields themselves stay `String`. -/

/-- The comprehension of line 291, evaluated left to right with Python's
short-circuiting; `int(dat[0])` on a non-numeral raises (`ValueError`), and
`float(...)` of the first comma-piece of the AF subfield likewise. -/
def qualifying (af_idx : ℕ) : List (List String) → Except String (List ℚ)
  | [] => .ok []
  | dat :: rest =>
    if af_idx < dat.length ∧ dat.getD af_idx "" ≠ "." ∧ dat.getD 0 "" ≠ "."
    then
      match parseInt (dat.getD 0 "").toList with
      | none => .error "ValueError: int"
      | some g =>
        if g ≤ 1 then
          match parseRat (((splitChar ',' (dat.getD af_idx "").toList).headD [])) with
          | none => .error "ValueError: float"
          | some q => (qualifying af_idx rest).map (fun l => q :: l)
        else qualifying af_idx rest
    else qualifying af_idx rest

/-- `compute_Fws(vcfrow)`: `.ok none` models returning `None` (nothing
appended to INFO by `add_Fws_vcf`), `.ok (some (Hs, Fws))` the appended pair. -/
def compute_Fws (format : List String) (dats : List (List String)) :
    Except String (Option (ℚ × ℚ)) :=
  match idxOfA format "AF" with
  | none => .ok none
  | some af_idx =>
    match qualifying af_idx dats with
    | .error m => .error m
    | .ok freqs =>
      if freqs.length < 2 then .ok none
      else
        let p_s : ℚ := freqs.sum / (freqs.length : ℚ)
        let H_s : ℚ := 2 * p_s * (1 - p_s)
        if H_s = 0 then .ok none
        else
          let H_w : ℚ := ((freqs.map (fun p => 2 * p * (1 - p))).sum) / (freqs.length : ℚ)
          .ok (some (H_s, 1 - H_w / H_s))

/-! ## `iSNV_table` (TableFlattener, intrahost.py lines 333-363) -/

/-- Line 338-339: `f = row[s].split(':')[1]; if f and f!='.':` — the decision
whether sample `s` produces an output row.  A sample field without a second
colon-piece raises `IndexError`. -/
def iSNV_sample_emits (sfield : String) : Except String Bool :=
  match (splitChar ':' sfield.toList).get? 1 with
  | none => .error "IndexError"
  | some f => .ok (decide (f ≠ [] ∧ f ≠ ['.']))

/-- The samples of one row that produce output rows, in column order.
No warning is produced for skipped samples. -/
def iSNV_emitted : List (String × String) → Except String (List String)
  | [] => .ok []
  | (s, v) :: rest =>
    match iSNV_sample_emits v with
    | .error m => .error m
    | .ok b =>
      match iSNV_emitted rest with
      | .error m => .error m
      | .ok r => .ok (if b then s :: r else r)

/-- Lines 346-348: split the `EFF=` INFO value on `','`, then per descriptor
strip trailing `')'`, turn `'('` into `'|'` and split on `'|'`. -/
def parseEffDescriptor (eff : List Char) : List (List Char) :=
  splitChar '|' (((eff.reverse.dropWhile (fun c => c = ')')).reverse).map
    (fun c => if c = '(' then '|' else c))

/-- Line 348: `[eff[i] for i in (0,3,4,5,6,9,11)]`; a short descriptor raises
`IndexError`. -/
def projEff (e : List (List Char)) : Except String (List (List Char)) :=
  match e.get? 0, e.get? 3, e.get? 4, e.get? 5, e.get? 6, e.get? 9, e.get? 11 with
  | some a, some b, some c, some d, some f, some g, some h => .ok [a, b, c, d, f, g, h]
  | _, _, _, _, _, _, _ => .error "IndexError"

/-- Line 349 condition: `eff[5] not in ('sGP','ssGP') and int(eff[6]) < 2`,
with Python's short-circuit (`int` is not evaluated for excluded genes). -/
def effKeep (e : List (List Char)) : Except String Bool :=
  if e.getD 5 [] = "sGP".toList ∨ e.getD 5 [] = "ssGP".toList then .ok false
  else
    match parseInt (e.getD 6 []) with
    | none => .error "ValueError: int"
    | some k => .ok (decide (k < 2))

def effFilter : List (List (List Char)) → Except String (List (List (List Char)))
  | [] => .ok []
  | e :: rest =>
    match effKeep e with
    | .error m => .error m
    | .ok b =>
      match effFilter rest with
      | .error m => .error m
      | .ok r => .ok (if b then e :: r else r)

/-- The `assert len(effs)==1` of line 350: succeed only on a one-element
survivor list. -/
def selectOne (l : List (List (List Char))) : Except String (List (List Char)) :=
  match l with
  | [e] => .ok e
  | _ => .error "AssertionError: len effs == 1"

/-- Lines 346-351: select the unique surviving EFF descriptor; the
`assert len(effs)==1` is fatal whenever the survivor count differs from 1. -/
def effSelect (effVal : List Char) : Except String (List (List Char)) :=
  match ((splitChar ',' effVal).map parseEffDescriptor).mapM projEff with
  | .error m => .error m
  | .ok effs1 =>
    match effFilter effs1 with
    | .error m => .error m
    | .ok effs2 => selectOne effs2

/-! ## `iSNP_per_patient` (TemporalAggregator, intrahost.py lines 387-400)

A flat-table row keeps only the fields the function touches; the numeric
fields are modelled by their rational values (`float(...)` on the tab-file
strings). -/

structure PRow where
  pos : ℕ
  patient : String
  sample : String
  time : Option String  -- `none` models a missing or empty (falsy) time field
  iSNV_freq : ℚ
  Hw : ℚ
deriving DecidableEq

/-- Modelled from the spec: `util.misc.median` (not under `src/`) — the middle
element of the sorted values, or the mean of the two middle elements. -/
def medianQ (l : List ℚ) : ℚ :=
  let s := List.insertionSort (fun x y : ℚ => x ≤ y) l
  if s.length % 2 = 1 then s.getD (s.length / 2) 0
  else (s.getD (s.length / 2 - 1) 0 + s.getD (s.length / 2) 0) / 2

/-- The body of `iSNP_per_patient` for one `(pos, patient)` group
(lines 390-400).  If any row has a truthy time value the group is collapsed:
frequency aggregated, `Hw` recomputed as `2·f·(1-f)`, sample renamed to the
patient.  Otherwise the single row passes through unchanged; several rows
without time values hit `assert len(rows)==1` (fatal). -/
def iSNP_group (agg : List ℚ → ℚ) : List PRow → Except String PRow
  | [] => .error "empty group"
  | row :: rest =>
    let rows := row :: rest
    if (rows.filterMap (fun r => r.time)) ≠ [] then
      let f := agg (rows.map (fun r => r.iSNV_freq))
      .ok { row with iSNV_freq := f, Hw := 2 * f * (1 - f), sample := row.patient }
    else if rest = [] then .ok row
    else .error "AssertionError: multiple rows without time"

/-! ## Spec-side definition for the FwsCalculator qualification (claim C6) -/

/-- The claim's own wording of which samples qualify, for comparison with the
code's `qualifying`: AF subfield present and not `'.'`, GT equal to 0 or 1;
the collected value is the first ALT-allele frequency. -/
def specQualFreq (af_idx : ℕ) (dat : List String) : Option ℚ :=
  if af_idx < dat.length ∧ dat.getD af_idx "" ≠ "." ∧
     (parseNat (dat.getD 0 "").toList = some 0 ∨ parseNat (dat.getD 0 "").toList = some 1)
  then parseRat ((splitChar ',' (dat.getD af_idx "").toList).headD [])
  else none

/-! ## Concrete inputs for the worked scenarios -/

/-- Spec scenario 3 / claim C1: two samples at position 100. -/
def scSamples : List String := ["sample1", "sample2"]

def scRef : List Char := List.replicate 100 'A'

/-- sample1's consensus row is all `A`; sample2's carries `G` at position 100. -/
def scAln (s : String) : List Char :=
  if s = "sample2" then List.replicate 99 'A' ++ ['G'] else List.replicate 100 'A'

/-- sample2 has caller data `G:40:40, A:10:10` (frequencies 0.8 / 0.2);
sample1 has none. -/
def scCalls : List (String × List Call) :=
  [("sample2", [⟨['G'], 40, 40⟩, ⟨['A'], 10, 10⟩])]

/-- The record claim C1 asserts for scenario 3: sample1 GT=0 with AF `'.'`,
sample2 GT=1 with AF `0.2`. -/
def scClaimOut : VcfOut :=
  ⟨100, ['A'], [['G']], [some 0, some 1], [none, some [1 / 5]]⟩

/-- Claim C7's failing input: both samples carry surviving caller data, but
sample2's consensus slice is `N` (outside `{A,C,T,G}`). -/
def c7Aln (s : String) : List Char :=
  if s = "sample2" then List.replicate 10 'N' else List.replicate 10 'A'

def c7Calls : List (String × List Call) :=
  [("sample1", [⟨['A'], 40, 40⟩, ⟨['G'], 10, 10⟩]),
   ("sample2", [⟨['A'], 40, 40⟩, ⟨['G'], 10, 10⟩])]

/-- Claim C8's concrete EFF INFO value: two descriptors, the second carrying
the excluded gene symbol `sGP`. -/
def c8EffVal : List Char :=
  "missense(a|b|c|p.A5G|200|GENE1|x|y|GENE1p|t|0),silent(a|b|c|d|e|f|x|y|sGP|t|0)".toList

/-- The projected subfields (indices 0,3,4,5,6,9,11) of `c8EffVal`'s first
descriptor. -/
def c8Desc : List (List Char) :=
  ["missense".toList, "c".toList, "p.A5G".toList, "200".toList,
   "GENE1".toList, "GENE1p".toList, "0".toList]

/-- The projected subfields of `c8EffVal`'s second (excluded) descriptor. -/
def c8Desc2 : List (List Char) :=
  ["silent".toList, "c".toList, "d".toList, "e".toList,
   "f".toList, "sGP".toList, "0".toList]

/-- Spec scenario 1 input row for the strand-bias filter: `T` fails the
5-reads-per-strand threshold, so only one allele survives. -/
def sc1VpRow : VpRow :=
  ⟨["chrom", "pos", "minor", "major", "x", "y", "bias"],
   [("A", 6, 6), ("T", 4, 4)]⟩

/-- Spec scenario 2 input row for the strand-bias filter. -/
def scVpRow : VpRow :=
  ⟨["chrom", "pos", "minor", "major", "x", "y", "bias"],
   [("A", 10, 10), ("T", 5, 6)]⟩

/-- Spec scenario 2 expected output row: ranked `[A(20), T(11)]`, minor `T`,
major `A`, percent `35.4839`. -/
def scVpOut : VpRow :=
  ⟨["chrom", "pos", "T", "A", "x", "y", "35.4839"],
   [("A", 10, 10), ("T", 5, 6)]⟩

/-! ## Helper lemmas -/

theorem sortCalls_perm (l : List (String × ℕ × ℕ)) :
    List.Perm (sortCalls l) l :=
  List.perm_insertionSort rankRel l

/-- Every sample surviving lines 192-199 kept at least two filtered alleles
(a sample left with one or zero was put in `dropped` and removed). -/
theorem survivorRows_two_le (grouped : List (String × List Call)) :
    ∀ p ∈ survivorRows grouped, 2 ≤ p.2.length := by
  intro p hp
  simp only [survivorRows, List.mem_filter, decide_eq_true_eq] at hp
  obtain ⟨hp1, hp2⟩ := hp
  by_contra hlt
  push_neg at hlt
  exact hp2 (List.mem_map.mpr ⟨p, List.mem_filter.mpr ⟨hp1, by
    simp only [decide_eq_true_eq]; omega⟩, rfl⟩)

/-- Line 207 raises `TypeError` as soon as the list comprehension reaches a
sample whose (non-empty) allele list is handed to the broken-keyed sort. -/
theorem combineSort_cons_error (s : String) (cs : List Call)
    (rest : List (String × List Call)) (h : cs ≠ []) :
    combineSort ((s, cs) :: rest) = .error "TypeError: lambda a,n" := by
  unfold combineSort sortedByBrokenKey
  cases cs with
  | nil => exact absurd rfl h
  | cons c cs' => rfl

/-- The per-position body in closed form: a position whose samples are all
filtered away is dropped (lines 200-202); any position with a surviving
sample dies with `TypeError` at line 207.  Nothing else can happen. -/
theorem processPositionE_eq (samples : List String) (ref : List Char)
    (aln : String → List Char) (pos : ℕ) (grouped : List (String × List Call)) :
    processPositionE samples ref aln pos grouped =
      (if (survivorRows grouped).isEmpty then .ok none
       else .error "TypeError: lambda a,n") := by
  unfold processPositionE
  by_cases h : (survivorRows grouped).isEmpty = true
  · rw [if_pos h, if_pos h]
  · rw [if_neg h, if_neg h]
    cases hs : survivorRows grouped with
    | nil =>
      rw [hs] at h
      exact absurd rfl h
    | cons p rest =>
      have hlen : 2 ≤ p.2.length :=
        survivorRows_two_le grouped p (hs ▸ List.mem_cons_self p rest)
      have hne : p.2 ≠ [] := by
        intro hc
        rw [hc] at hlen
        simp at hlen
      obtain ⟨s, cs⟩ := p
      rw [combineSort_cons_error s cs rest hne]

/-! ## Claim theorems -/

/-- C4: in `filter_strand_bias`, an allele of an input row appears in the
emitted row iff both its strand counts reach `minReadsEach` and the
forward/reverse quotient lies within `[1/maxBias, maxBias]`; a row with fewer
than two surviving alleles yields nothing; and the output never has more rows
than the input. -/
theorem C4_strand_bias_filter (minReadsEach maxBias : ℕ)
    (_hmin : 1 ≤ minReadsEach) :
    (∀ row out, strand_bias_row minReadsEach maxBias row = some out →
      ∀ t, t ∈ out.acounts ↔
        (t ∈ row.acounts ∧
         (minReadsEach ≤ t.2.1 ∧ minReadsEach ≤ t.2.2 ∧
          (t.2.1 : ℚ) / (t.2.2 : ℚ) ≤ (maxBias : ℚ) ∧
          (1 : ℚ) / (maxBias : ℚ) ≤ (t.2.1 : ℚ) / (t.2.2 : ℚ)))) ∧
    (∀ row, (strand_bias_row minReadsEach maxBias row).isSome ↔
      2 ≤ (row.acounts.filter (passBias minReadsEach maxBias)).length) ∧
    (∀ rows, (filter_strand_bias minReadsEach maxBias rows).length ≤ rows.length) := by
  refine ⟨?_, ?_, ?_⟩
  · intro row out h t
    unfold strand_bias_row at h
    split at h
    · have hout : strandBiasEmit minReadsEach maxBias row = out :=
        Option.some.inj h
      subst hout
      show t ∈ sortCalls (row.acounts.filter (passBias minReadsEach maxBias)) ↔ _
      rw [(sortCalls_perm _).mem_iff, List.mem_filter]
      unfold passBias
      simp only [Bool.and_eq_true, decide_eq_true_eq, and_assoc]
    · exact absurd h (by simp)
  · intro row
    unfold strand_bias_row
    split
    · rename_i hlen
      simp only [Option.isSome_some, true_iff]
      omega
    · rename_i hlen
      constructor
      · intro h; simp at h
      · intro h; exact absurd h (by omega)
  · intro rows
    exact List.length_filterMap_le _ rows

/-- C4 witness: spec scenario 1 — with `minReadsEach=5, maxBias=10` the row
`A:6:6, T:4:4` keeps only `A` and is dropped, and the row count cannot grow. -/
theorem C4_strand_bias_filter_witness :
    (1 ≤ 5) ∧
    ((strand_bias_row 5 10 sc1VpRow).isSome ↔
      2 ≤ (sc1VpRow.acounts.filter (passBias 5 10)).length) ∧
    (filter_strand_bias 5 10 [sc1VpRow]).length ≤ 1 :=
  ⟨by decide,
   (C4_strand_bias_filter 5 10 (by decide)).2.1 sc1VpRow,
   by simpa using (C4_strand_bias_filter 5 10 (by decide)).2.2 [sc1VpRow]⟩

theorem isUpperStr_drop (l : List Char) (n : ℕ) (h : isUpperStr l = true) :
    isUpperStr (l.drop n) = true := by
  unfold isUpperStr at *
  rw [List.all_eq_true] at *
  intro c hc
  exact h c (List.mem_of_mem_drop hc)

theorem finishAllele_pos (x : List Char) (h1 : x ≠ []) (h2 : isUpperStr x = true) :
    finishAllele x = some x := by
  unfold finishAllele
  rw [if_pos ⟨h1, h2⟩]

theorem finishAllele_some (x res : List Char) (h : finishAllele x = some res) :
    res ≠ [] ∧ isUpperStr res = true := by
  unfold finishAllele at h
  split at h
  · rename_i hcond
    cases h
    exact hcond
  · exact absurd h (by simp)

/-- The single-base (SNP) arm of `resolveAllele`, exposed as an equation. -/
theorem resolveAllele_single (f : ℚ) (cons : List Char) (c : Char)
    (hc : isACTG c = true) :
    resolveAllele f cons [c] =
      if (1 : ℚ) / 2 < f ∧ cons = [] then none
      else finishAllele (c :: cons.drop 1) := by
  have hc' : ((c = 'A' ∨ c = 'C') ∨ c = 'T') ∨ c = 'G' := by
    simpa [isACTG] using hc
  rcases hc' with ((rfl | rfl) | rfl) | rfl <;> rfl

/-- C5: every emitted strand-bias row lists its surviving alleles in
descending total-depth order (a permutation of the surviving alleles), its
descriptor fields 3 and 2 are overwritten with the 1st- and 2nd-ranked allele
codes, and descriptor field 6 becomes `100·mac/tot` formatted to 6 significant
digits, where `mac` sums the depths below the top rank and `tot` all surviving
depths. -/
theorem C5_strand_bias_ranking (minReadsEach maxBias : ℕ) (row out : VpRow)
    (hfront : row.front.length = 7)
    (h : strand_bias_row minReadsEach maxBias row = some out) :
    List.Sorted (fun x y => callDepth y ≤ callDepth x) out.acounts ∧
    List.Perm out.acounts (row.acounts.filter (passBias minReadsEach maxBias)) ∧
    (∃ t0 t1, out.acounts.get? 0 = some t0 ∧ out.acounts.get? 1 = some t1 ∧
      out.front.get? 3 = some t0.1 ∧ out.front.get? 2 = some t1.1) ∧
    out.front.get? 6 = some (format6g
      (100 * (((out.acounts.drop 1).map callDepth).sum : ℚ) /
        (((out.acounts.map callDepth).sum : ℚ)))) := by
  unfold strand_bias_row at h
  split at h
  case isFalse => exact absurd h (by simp)
  case isTrue hlen =>
  have hout : strandBiasEmit minReadsEach maxBias row = out := Option.some.inj h
  subst hout
  have hac : (strandBiasEmit minReadsEach maxBias row).acounts =
      sortCalls (row.acounts.filter (passBias minReadsEach maxBias)) := rfl
  have hlen2 : 1 < (sortCalls (row.acounts.filter (passBias minReadsEach maxBias))).length := by
    rw [(sortCalls_perm _).length_eq]; exact hlen
  have h0 : (0 : ℕ) < (sortCalls (row.acounts.filter (passBias minReadsEach maxBias))).length :=
    Nat.lt_of_lt_of_le Nat.one_pos (Nat.le_of_lt hlen2)
  refine ⟨?_, ?_, ?_, ?_⟩
  · rw [hac]
    exact (List.sorted_insertionSort rankRel _).imp
      (fun hr => by
        rcases hr with h' | ⟨h', _⟩
        · exact Nat.le_of_lt h'
        · exact Nat.le_of_eq h')
  · rw [hac]; exact sortCalls_perm _
  · refine ⟨(sortCalls (row.acounts.filter (passBias minReadsEach maxBias))).get ⟨0, h0⟩,
      (sortCalls (row.acounts.filter (passBias minReadsEach maxBias))).get ⟨1, hlen2⟩,
      ?_, ?_, ?_, ?_⟩
    · rw [hac]; exact List.get?_eq_get h0
    · rw [hac]; exact List.get?_eq_get hlen2
    · show ((((row.front.set 2 _).set 3 _).set 6 _).get? 3) = _
      rw [List.get?_set_ne _ _ (by omega), List.get?_set_eq_of_lt _ (by simp [hfront]),
        List.get?_eq_get h0]
      rfl
    · show ((((row.front.set 2 _).set 3 _).set 6 _).get? 2) = _
      rw [List.get?_set_ne _ _ (by omega), List.get?_set_ne _ _ (by omega),
        List.get?_set_eq_of_lt _ (by simp [hfront]), List.get?_eq_get hlen2]
      rfl
  · show ((((row.front.set 2 _).set 3 _).set 6 _).get? 6) = _
    rw [List.get?_set_eq_of_lt _ (by simp [hfront]), hac]

unseal Rat.mul Rat.inv Rat.add Rat.sub in
/-- C5 witness: spec scenario 2 — alleles `A:10:10` and `T:5:6` rank as
`[A(20), T(11)]`, minor and major become `T` and `A`, and the percent field is
`'%.6g' % (100*11/31) = "35.4839"`. -/
theorem C5_strand_bias_ranking_witness :
    scVpRow.front.length = 7 ∧
    strand_bias_row 5 10 scVpRow = some scVpOut ∧
    scVpOut.front.get? 6 = some "35.4839" ∧
    List.Sorted (fun x y => callDepth y ≤ callDepth x) scVpOut.acounts :=
  ⟨by decide, by decide, by decide,
   (C5_strand_bias_ranking 5 10 scVpRow scVpOut (by decide) (by decide)).1⟩

/-- C2: resolved allele strings — insertion `I<seq>` gives consensus first
base + inserted bases + consensus remaining bases; deletion `D<n>` gives the
consensus first base + the consensus substring from offset `1+n`; `i`/`d`
give the full consensus substring; a single base (necessarily one of
A/C/T/G) gives the variant base + the consensus remaining bases; and every
successfully resolved allele is non-empty and all uppercase. -/
theorem C2_allele_resolution :
    (∀ (f : ℚ) (c0 : Char) (rest ins : List Char),
        isUpperStr (c0 :: rest) = true → isUpperStr ins = true →
        resolveAllele f (c0 :: rest) ('I' :: ins) = some (c0 :: ins ++ rest)) ∧
    (∀ (f : ℚ) (c0 : Char) (rest ds : List Char) (n : ℕ),
        parseNat ds = some n → isUpperStr (c0 :: rest) = true →
        resolveAllele f (c0 :: rest) ('D' :: ds) =
          some (c0 :: (c0 :: rest).drop (1 + n))) ∧
    (∀ (f : ℚ) (cons : List Char), cons ≠ [] → isUpperStr cons = true →
        resolveAllele f cons ['i'] = some cons ∧
        resolveAllele f cons ['d'] = some cons) ∧
    (∀ (f : ℚ) (c : Char) (cons : List Char),
        isACTG c = true → isUpperStr cons = true →
        ¬((1 : ℚ) / 2 < f ∧ cons = []) →
        resolveAllele f cons [c] = some (c :: cons.drop 1)) ∧
    (∀ (f : ℚ) (cons a res : List Char),
        resolveAllele f cons a = some res → res ≠ [] ∧ isUpperStr res = true) := by
  refine ⟨?_, ?_, ?_, ?_, ?_⟩
  · intro f c0 rest ins h1 h2
    show finishAllele (c0 :: ins ++ rest) = some (c0 :: ins ++ rest)
    refine finishAllele_pos _ (by simp) ?_
    simp only [isUpperStr, List.all_cons, List.all_append, Bool.and_eq_true] at h1 h2 ⊢
    tauto
  · intro f c0 rest ds n hds h1
    have hr : resolveAllele f (c0 :: rest) ('D' :: ds) =
        match parseNat ds with
        | none => none
        | some n => finishAllele (c0 :: (c0 :: rest).drop (1 + n)) := rfl
    rw [hr, hds]
    refine finishAllele_pos _ (by simp) ?_
    simp only [isUpperStr, List.all_cons, Bool.and_eq_true] at h1 ⊢
    refine ⟨h1.1, ?_⟩
    have := isUpperStr_drop (c0 :: rest) (1 + n) (by
      simp only [isUpperStr, List.all_cons, Bool.and_eq_true]; exact h1)
    simpa [isUpperStr, List.drop_succ_cons] using this
  · intro f cons hne hup
    constructor
    · show finishAllele cons = some cons
      exact finishAllele_pos _ hne hup
    · show finishAllele cons = some cons
      exact finishAllele_pos _ hne hup
  · intro f c cons hc hup hnot
    rw [resolveAllele_single f cons c hc, if_neg hnot]
    refine finishAllele_pos _ (by simp) ?_
    simp only [isUpperStr, List.all_cons, Bool.and_eq_true]
    have hcu : c.toUpper = c := by
      have hc' : ((c = 'A' ∨ c = 'C') ∨ c = 'T') ∨ c = 'G' := by
        simpa [isACTG] using hc
      rcases hc' with ((rfl | rfl) | rfl) | rfl <;> decide
    refine ⟨by simpa using hcu, ?_⟩
    have := isUpperStr_drop cons 1 hup
    simpa [isUpperStr] using this
  · intro f cons a res h
    unfold resolveAllele at h
    split at h
    · split at h
      · exact absurd h (by simp)
      · exact finishAllele_some _ _ h
    · split at h
      · exact absurd h (by simp)
      · split at h
        · exact absurd h (by simp)
        · exact finishAllele_some _ _ h
    · split at h
      · exact finishAllele_some _ _ h
      · split at h
        · split at h
          · split at h
            · exact absurd h (by simp)
            · exact finishAllele_some _ _ h
          · exact absurd h (by simp)
        · exact absurd h (by simp)

/-- C2 witness: concrete resolutions against consensus slice `AC` —
`I G` gives `AGC`, `D1` gives `A`, `i` gives `AC`, SNP `G` gives `GC`; each
resolved allele is non-empty uppercase. -/
theorem C2_allele_resolution_witness :
    resolveAllele 0 ['A', 'C'] ['I', 'G'] = some ['A', 'G', 'C'] ∧
    resolveAllele 0 ['A', 'C'] ['D', '1'] = some ['A'] ∧
    resolveAllele 0 ['A', 'C'] ['i'] = some ['A', 'C'] ∧
    resolveAllele 0 ['A', 'C'] ['G'] = some ['G', 'C'] ∧
    (['G', 'C'] : List Char) ≠ [] ∧ isUpperStr ['G', 'C'] = true :=
  ⟨C2_allele_resolution.1 0 'A' ['C'] ['G'] (by decide) (by decide),
   C2_allele_resolution.2.1 0 'A' ['C'] ['1'] 1 (by decide) (by decide),
   (C2_allele_resolution.2.2.1 0 ['A', 'C'] (by decide) (by decide)).1,
   C2_allele_resolution.2.2.2.1 0 'G' ['A', 'C'] (by decide) (by decide)
     (by simp),
   C2_allele_resolution.2.2.2.2 0 ['A', 'C'] ['G'] ['G', 'C']
     (C2_allele_resolution.2.2.2.1 0 'G' ['A', 'C'] (by decide) (by decide)
       (by simp))⟩

theorem parseInt_of_parseNat (ds : List Char) (n : ℕ) (h : parseNat ds = some n) :
    parseInt ds = some (n : ℤ) := by
  unfold parseInt
  split
  · rename_i rest
    exfalso
    simp [parseNat, List.all_cons] at h
  · rw [h]; rfl

unseal Rat.mul Rat.inv Rat.add Rat.sub in
/-- C9 counterexample: a `(position, patient)` group with exactly one row
whose `time` field is set takes the aggregation branch — the `Hw` field is
recomputed as `2·f·(1-f) = 0.5`, differing from the input `Hw = 0.62`
(and `sample` is renamed), so the output row is not the input row. -/
theorem C9_single_row_counterexample :
    iSNP_group medianQ [⟨50, "P", "P.1", some "1", 1 / 2, 31 / 50⟩] =
      .ok ⟨50, "P", "P", some "1", 1 / 2, 1 / 2⟩ ∧
    ((31 : ℚ) / 50 ≠ 1 / 2) :=
  ⟨by decide, by decide⟩

/-- C9 (amended): a `(position, patient)` group with exactly one row and no
time value passes through `iSNP_per_patient` completely unchanged — every
field, including frequency and `Hw`, equals the input (the sample→patient
rename happens only in the aggregation branch, which such a group skips). -/
theorem C9_single_timepoint_passthrough (agg : List ℚ → ℚ) (r : PRow)
    (h : r.time = none) : iSNP_group agg [r] = .ok r := by
  unfold iSNP_group
  simp [h]

/-- C9 witness: the amended claim at a concrete single-row group. -/
theorem C9_single_timepoint_passthrough_witness :
    iSNP_group medianQ [⟨50, "P", "P.1", none, 1 / 2, 31 / 50⟩] =
      .ok ⟨50, "P", "P.1", none, 1 / 2, 31 / 50⟩ :=
  C9_single_timepoint_passthrough medianQ _ rfl

/-- With well-formed GT subfields (`'.'` or a natural numeral) and parsable
AF subfields, the comprehension of line 291 collects exactly the samples the
spec describes: AF present and not `'.'`, GT equal to 0 or 1. -/
theorem qualifying_eq_spec (af_idx : ℕ) (dats : List (List String))
    (hgt : ∀ dat ∈ dats,
      dat.getD 0 "" = "." ∨ (parseNat (dat.getD 0 "").toList).isSome)
    (haf : ∀ dat ∈ dats, af_idx < dat.length → dat.getD af_idx "" ≠ "." →
      (parseRat ((splitChar ',' (dat.getD af_idx "").toList).headD [])).isSome) :
    qualifying af_idx dats = .ok (dats.filterMap (specQualFreq af_idx)) := by
  induction dats with
  | nil => rfl
  | cons dat rest ih =>
    have hgt' := hgt dat (by simp)
    have haf' := haf dat (by simp)
    have ih' := ih (fun d hd => hgt d (by simp [hd]))
      (fun d hd => haf d (by simp [hd]))
    unfold qualifying
    rw [List.filterMap_cons]
    by_cases h1 : af_idx < dat.length ∧ dat.getD af_idx "" ≠ "." ∧ dat.getD 0 "" ≠ "."
    · rw [if_pos h1]
      rcases hgt' with hdot | hnum
      · exact absurd hdot h1.2.2
      obtain ⟨n, hn⟩ := Option.isSome_iff_exists.mp hnum
      have hpi := parseInt_of_parseNat _ _ hn
      split
      · rename_i heq
        rw [hpi] at heq
        cases heq
      · rename_i g heq
        rw [hpi] at heq
        obtain rfl : (n : ℤ) = g := by injection heq with h3
        by_cases h2 : (n : ℤ) ≤ 1
        · obtain ⟨q, hq⟩ := Option.isSome_iff_exists.mp (haf' h1.1 h1.2.1)
          have hspec : specQualFreq af_idx dat = some q := by
            unfold specQualFreq
            rw [if_pos ⟨h1.1, h1.2.1, by
              have : n = 0 ∨ n = 1 := by omega
              rcases this with rfl | rfl
              · exact Or.inl hn
              · exact Or.inr hn⟩]
            exact hq
          rw [if_pos h2, hspec]
          show _ = Except.ok (q :: List.filterMap (specQualFreq af_idx) rest)
          split
          · rename_i heq2
            rw [hq] at heq2
            cases heq2
          · rename_i q2 heq2
            rw [hq] at heq2
            obtain rfl : q = q2 := by injection heq2 with h4
            rw [ih']
            rfl
        · have hspec : specQualFreq af_idx dat = none := by
            unfold specQualFreq
            rw [if_neg]
            rintro ⟨-, -, hn01⟩
            rcases hn01 with hn0 | hn0 <;> rw [hn, Option.some.injEq] at hn0 <;> omega
          rw [if_neg h2, hspec, ih']
    · rw [if_neg h1]
      have hspec : specQualFreq af_idx dat = none := by
        unfold specQualFreq
        rw [if_neg]
        rintro ⟨ha, hb, hn01⟩
        refine h1 ⟨ha, hb, ?_⟩
        rcases hn01 with hn0 | hn0 <;>
          · intro hdot
            rw [hdot] at hn0
            simp [parseNat] at hn0
      rw [hspec, ih']

unseal Rat.mul Rat.inv Rat.add Rat.sub in
/-- C6: `compute_Fws` — nothing is appended when `AF` is absent from FORMAT;
the collected samples are exactly those with AF defined and GT 0 or 1 (first
ALT-allele frequency); and the result is `PI/FWS` iff at least two samples
qualify and `Hs ≠ 0`, with `Hs = 2·p_s·(1-p_s)` for `p_s` the mean frequency
and `Fws = 1 - mean(2·p_i·(1-p_i))/Hs`, unclamped.  The worked example
(frequencies 0.1, 0.3) yields `Hs = 0.32 = 8/25` and `Fws = 0.0625 = 1/16`. -/
theorem C6_fws_statistic :
    (∀ format dats, idxOfA format "AF" = none →
      compute_Fws format dats = .ok none) ∧
    (∀ (af_idx : ℕ) (dats : List (List String)),
      (∀ dat ∈ dats,
        dat.getD 0 "" = "." ∨ (parseNat (dat.getD 0 "").toList).isSome) →
      (∀ dat ∈ dats, af_idx < dat.length → dat.getD af_idx "" ≠ "." →
        (parseRat ((splitChar ',' (dat.getD af_idx "").toList).headD [])).isSome) →
      qualifying af_idx dats = .ok (dats.filterMap (specQualFreq af_idx))) ∧
    (∀ (format : List String) (af_idx : ℕ) (dats : List (List String)) (fs : List ℚ),
      idxOfA format "AF" = some af_idx → qualifying af_idx dats = .ok fs →
      compute_Fws format dats = .ok (
        if fs.length < 2 then none
        else if 2 * (fs.sum / (fs.length : ℚ)) * (1 - fs.sum / (fs.length : ℚ)) = 0 then none
        else some (2 * (fs.sum / (fs.length : ℚ)) * (1 - fs.sum / (fs.length : ℚ)),
          1 - ((fs.map (fun p => 2 * p * (1 - p))).sum / (fs.length : ℚ)) /
            (2 * (fs.sum / (fs.length : ℚ)) * (1 - fs.sum / (fs.length : ℚ)))))) ∧
    compute_Fws ["GT", "AF"] [["0", "0.1"], ["1", "0.3"]] =
      .ok (some (8 / 25, 1 / 16)) := by
  refine ⟨?_, qualifying_eq_spec, ?_, ?_⟩
  · intro format dats h
    unfold compute_Fws
    rw [h]
  · intro format af_idx dats fs h1 h2
    simp only [compute_Fws, h1, h2]
    split_ifs <;> rfl
  · decide

unseal Rat.mul Rat.inv Rat.add Rat.sub in
/-- C6 witness: the claim applied to a two-sample row — the qualifying
samples are exactly the spec-described ones, and the statistics come out as
`Hs = 8/25`, `Fws = 1/16`. -/
theorem C6_fws_statistic_witness :
    (qualifying 1 [["0", "0.1"], ["1", "0.3"]] =
      .ok ([["0", "0.1"], ["1", "0.3"]].filterMap (specQualFreq 1))) ∧
    compute_Fws ["GT", "AF"] [["0", "0.1"], ["1", "0.3"]] =
      .ok (some (8 / 25, 1 / 16)) :=
  ⟨C6_fws_statistic.2.1 1 [["0", "0.1"], ["1", "0.3"]] (by decide) (by decide),
   C6_fws_statistic.2.2.2⟩

/-- C8: `iSNV_table`'s EFF handling selects exactly one descriptor — given
that every comma-separated descriptor projects (has the required subfields)
and the surviving set is computed by excluding gene symbols `sGP`/`ssGP` and
ranks `≥ 2`, the selection succeeds iff exactly one descriptor survives, and
any other survivor count (more than one, or zero) aborts with an
`AssertionError`. -/
theorem C8_eff_selection (effVal : List Char)
    (effs1 survivors : List (List (List Char)))
    (h1 : ((splitChar ',' effVal).map parseEffDescriptor).mapM projEff = .ok effs1)
    (h2 : effFilter effs1 = .ok survivors) :
    (∀ e, effSelect effVal = .ok e ↔ survivors = [e]) ∧
    (survivors.length ≠ 1 → ∃ m, effSelect effVal = .error m) := by
  have hsel : effSelect effVal = selectOne survivors := by
    unfold effSelect
    split
    · rename_i m heq
      rw [h1] at heq
      cases heq
    · rename_i effs1' heq
      rw [h1] at heq
      obtain rfl : effs1 = effs1' := by injection heq
      split
      · rename_i m heq2
        rw [h2] at heq2
        cases heq2
      · rename_i effs2 heq2
        rw [h2] at heq2
        obtain rfl : survivors = effs2 := by injection heq2
        rfl
  constructor
  · intro e
    rw [hsel]
    rcases survivors with _ | ⟨a, _ | ⟨b, t⟩⟩ <;> simp [selectOne]
  · intro hlen
    rw [hsel]
    rcases survivors with _ | ⟨a, _ | ⟨b, t⟩⟩
    · exact ⟨_, rfl⟩
    · simp at hlen
    · exact ⟨_, rfl⟩

/-- C8 witness: on `c8EffVal` the `sGP` descriptor is excluded and selection
returns the single survivor. -/
theorem C8_eff_selection_witness :
    effSelect c8EffVal = .ok c8Desc :=
  ((C8_eff_selection c8EffVal [c8Desc, c8Desc2] [c8Desc]
      (by decide) (by decide)).1 c8Desc).mpr rfl

/-- C10: `iSNV_table` emits an output row for a listed sample iff the second
colon-delimited subfield of that sample's genotype column (read as AF without
consulting FORMAT) is non-empty and not `'.'`; such samples are skipped
producing nothing. -/
theorem C10_af_subfield_emission (samps : List (String × String))
    (h : ∀ p ∈ samps, 2 ≤ (splitChar ':' p.2.toList).length) :
    ∃ out, iSNV_emitted samps = .ok out ∧
      ∀ s, s ∈ out ↔ ∃ v, (s, v) ∈ samps ∧
        ∃ fld, (splitChar ':' v.toList).get? 1 = some fld ∧
          fld ≠ [] ∧ fld ≠ ['.'] := by
  induction samps with
  | nil => exact ⟨[], rfl, by simp⟩
  | cons p rest ih =>
    obtain ⟨out, hout, hiff⟩ := ih (fun q hq => h q (by simp [hq]))
    obtain ⟨s0, v0⟩ := p
    have hlen : 1 < (splitChar ':' v0.toList).length := h (s0, v0) (by simp)
    obtain ⟨fld, hfld⟩ : ∃ fld, (splitChar ':' v0.toList).get? 1 = some fld :=
      ⟨_, List.get?_eq_get hlen⟩
    have hemit : iSNV_sample_emits v0 = .ok (decide (fld ≠ [] ∧ fld ≠ ['.'])) := by
      unfold iSNV_sample_emits
      rw [hfld]
    refine ⟨if fld ≠ [] ∧ fld ≠ ['.'] then s0 :: out else out, ?_, ?_⟩
    · unfold iSNV_emitted
      split
      · rename_i m heq
        rw [hemit] at heq
        cases heq
      · rename_i b heq
        rw [hemit] at heq
        obtain rfl : decide (fld ≠ [] ∧ fld ≠ ['.']) = b := by injection heq
        split
        · rename_i m heq2
          rw [hout] at heq2
          cases heq2
        · rename_i r heq2
          rw [hout] at heq2
          obtain rfl : out = r := by injection heq2
          by_cases hb : fld ≠ [] ∧ fld ≠ ['.']
          · simp [hb]
          · simp [hb]
    · intro s
      by_cases hb : fld ≠ [] ∧ fld ≠ ['.']
      · rw [if_pos hb]
        constructor
        · intro hmem
          rcases List.mem_cons.mp hmem with rfl | hmem'
          · exact ⟨v0, by simp, fld, hfld, hb.1, hb.2⟩
          · obtain ⟨v, hv, fl, hfl, ha, hc⟩ := (hiff s).mp hmem'
            exact ⟨v, by simp [hv], fl, hfl, ha, hc⟩
        · rintro ⟨v, hv, fl, hfl2, ha, hc⟩
          rcases List.mem_cons.mp hv with heq | hv'
          · have hs : s = s0 := congrArg Prod.fst heq
            exact hs ▸ List.mem_cons_self _ _
          · exact List.mem_cons_of_mem _ ((hiff s).mpr ⟨v, hv', fl, hfl2, ha, hc⟩)
      · rw [if_neg hb]
        rw [hiff s]
        constructor
        · rintro ⟨v, hv, fl, hfl2, ha, hc⟩
          exact ⟨v, List.mem_cons_of_mem _ hv, fl, hfl2, ha, hc⟩
        · rintro ⟨v, hv, fl, hfl2, ha, hc⟩
          rcases List.mem_cons.mp hv with heq | hv'
          · exfalso
            have hv0 : v = v0 := congrArg Prod.snd heq
            rw [hv0, hfld] at hfl2
            have : fld = fl := by injection hfl2
            exact hb ⟨this ▸ ha, this ▸ hc⟩
          · exact ⟨v, hv', fl, hfl2, ha, hc⟩

/-- C10 witness: a row with samples `s1 = "0:0.8"` (emitted), `s2 = "0:."`
and `s3 = "1:"` (both silently skipped). -/
theorem C10_af_subfield_emission_witness :
    ∃ out, iSNV_emitted [("s1", "0:0.8"), ("s2", "0:."), ("s3", "1:")] = .ok out ∧
      ∀ s, s ∈ out ↔ ∃ v, (s, v) ∈ [("s1", "0:0.8"), ("s2", "0:."), ("s3", "1:")] ∧
        ∃ fld, (splitChar ':' v.toList).get? 1 = some fld ∧
          fld ≠ [] ∧ fld ≠ ['.'] :=
  C10_af_subfield_emission [("s1", "0:0.8"), ("s2", "0:."), ("s3", "1:")]
    (by decide)

unseal Rat.mul Rat.inv Rat.add Rat.sub in
/-- C1 counterexample: on the claim's own scenario-3 site (REF `A`; sample1
consensus `A` with no caller data; sample2 consensus `G` with surviving
counts G:40:40, A:10:10) no VCF record is emitted at all: sample2 survives
the hard re-filter, so line 207's `sorted(..., key=lambda a,n: n, ...)`
raises `TypeError` and the conversion aborts before genotypes or
frequencies are computed.  In particular the record the claim describes
(sample1 `0:.`, sample2 `1:0.2`) is not produced. -/
theorem C1_gt_af_counterexample :
    processPosition scSamples scRef scAln 100 scCalls =
      .fatal "TypeError: lambda a,n" ∧
    processPosition scSamples scRef scAln 100 scCalls ≠ .emitted scClaimOut :=
  ⟨by decide, by decide⟩

/-- C1 (amended): `vphaser_to_vcf` emits no data records.  Every grouped
position either loses all its samples to the hard re-filter and is dropped
with a warning, or — as soon as at least one sample survives — aborts with
the `TypeError` raised by line 207's two-parameter sort key
`lambda a,n: n`, before any `GT:AF` sample value is computed; lines 210-270
(spans, consensus slices, allele resolution, vocabulary, emission) are dead
code. -/
theorem C1_no_record_emitted (samples : List String) (ref : List Char)
    (aln : String → List Char) (pos : ℕ) (grouped : List (String × List Call)) :
    processPosition samples ref aln pos grouped =
      (if (survivorRows grouped).isEmpty then .dropped
       else .fatal "TypeError: lambda a,n") := by
  unfold processPosition
  rw [processPositionE_eq]
  by_cases h : (survivorRows grouped).isEmpty = true
  · rw [if_pos h, if_pos h]
  · rw [if_neg h, if_neg h]

unseal Rat.mul Rat.inv Rat.add Rat.sub in
/-- C1 witness: the amended claim instantiated on the scenario-3 site,
whose surviving sample puts it on the fatal branch. -/
theorem C1_no_record_emitted_witness :
    processPosition scSamples scRef scAln 100 scCalls =
      (if (survivorRows scCalls).isEmpty then .dropped
       else .fatal "TypeError: lambda a,n") :=
  C1_no_record_emitted scSamples scRef scAln 100 scCalls

/-- C3: the claimed vocabulary discipline (reference first, consensus-ranked
then frequency-only alleles first-seen-deduped, `assert len(alleles)>1`
loud) is the evident intent of lines 258-262, but the program never reaches
them: no site is ever emitted, because every position with a surviving
sample raises `TypeError` at line 207 — and line 259's own
`sorted(histogram.items(), key=lambda a,n: n, reverse=True)` carries the
identical broken key. -/
theorem C3_vocabulary_unreachable (samples : List String) (ref : List Char)
    (aln : String → List Char) (pos : ℕ) (grouped : List (String × List Call))
    (v : VcfOut) :
    processPosition samples ref aln pos grouped ≠ .emitted v := by
  unfold processPosition
  rw [processPositionE_eq]
  by_cases h : (survivorRows grouped).isEmpty = true
  · rw [if_pos h]
    simp
  · rw [if_neg h]
    simp

unseal Rat.mul Rat.inv Rat.add Rat.sub in
/-- C7: the code contradicts the claim twice over.  On a site where sample2
has surviving caller data and an unclean consensus slice (`N`), the run
aborts with `TypeError` at line 207 before the consensus check at lines
217-222 is even reached (first conjunct).  And the per-sample loop of lines
225-256 as written — exercised here directly on the depth-combined rows it
would receive — still aborts rather than continue: line 222 deletes the
unclean sample from `consAlleles` while its caller data stays in `rows`,
so line 229's `consAlleles[s]` is a `KeyError` (second conjunct).  Either
way the drop is fatal, not a logged warning with processing continuing. -/
theorem C7_unclean_consensus_fatal :
    processPosition scSamples (List.replicate 10 'A') c7Aln 10 c7Calls =
      .fatal "TypeError: lambda a,n" ∧
    iSNVsOf [("sample1", [(['A'], 80), (['G'], 20)]),
             ("sample2", [(['A'], 80), (['G'], 20)])]
      (consAllelesOf scSamples c7Aln 10 10) scSamples =
      .error "KeyError: consAlleles" :=
  ⟨by decide, by decide⟩

end Intrahost



